import Mathlib

/-!
Verification of the webshot capture pipeline (src/webpage_screenshot.py).

The Python source is shallowly embedded: browser effects are recorded as an
explicit trace of actions, fallible engine calls are `Except` values supplied
by an environment, and DOM elements are oracles for attribute and text reads.
-/

namespace Webshot

/-- Errors raised by the rendering engine: the dedicated navigation/load
timeout (`PlaywrightTimeout`) and any other exception with its message. -/
inductive PwError where
  | timeout : PwError
  | other : String → PwError
deriving DecidableEq

/-- Observable effects of one capture run, in the order they are performed. -/
inductive Action where
  | launch : Action
  | newPage : Action
  | setTimeout : Int → Action
  | goto : String → Action
  | sleep : Rat → Action
  | scrollTo : Nat → Action
  | readHeight : Action
  | waitNetworkIdle : Action
  | screenshot : String → Action
  | closeBrowser : Action
  | stopPlaywright : Action
  | print : String → Action
deriving DecidableEq

/-- A DOM element handle: attribute reads and inner-text reads may fail. -/
structure Element where
  attr : String → Except Unit (Option String)
  innerText : Except Unit String

/-- Mirror of the Python `ImageInfo` pydantic model. -/
structure ImageInfo where
  src : String
  alt : String
  width : String
  height : String
deriving DecidableEq

/-- Mirror of the Python `WebPageContent` pydantic model; the Python dicts
become insertion-ordered association lists. -/
structure WebPageContent where
  screenshot_path : String
  url : String
  title : String
  text_content : String
  html : String
  meta : List (String × String)
  images : List ImageInfo
  headings : List (String × List String)
deriving DecidableEq

/-- A live page as the pipeline observes it: the successive values returned
by evaluating `document.body.scrollHeight` (`heights k` is the k-th read),
the viewport height, the outcomes of the fallible engine calls, and the DOM
query results used by content extraction. -/
structure Page where
  heights : Nat → Nat
  viewportHeight : Nat
  gotoResult : Except PwError Unit
  screenshotResult : Except PwError Unit
  urlVal : Except PwError String
  titleVal : Except PwError String
  bodyTextVal : Except PwError String
  htmlVal : Except PwError String
  metaQuery : String → Except Unit (Option Element)
  ogTags : List Element
  imgElements : List Element
  headingElems : Nat → List Element

/-- Environment of one run: outcomes of browser launch and page creation,
plus the page itself. -/
structure Env where
  launchResult : Except PwError Unit
  newPageResult : Except PwError Unit
  page : Page

/-- The keyword arguments of `WebScreenshot.capture` / `capture_full`. -/
structure Config where
  url : String
  outputPath : String
  fullPage : Bool
  viewportWidth : Int
  viewportHeight : Int
  waitTime : Int
  scrollDelay : Rat
  timeout : Int

/-- State of the scroll loop in `_trigger_lazy_load`, with the trace of
actions it has emitted. -/
structure ScrollState where
  currentPosition : Nat
  totalHeight : Nat
  scrollCount : Nat
  trace : List Action

/-- One iteration of the while-loop body of `_trigger_lazy_load`: scroll to
the current position, sleep, advance by the viewport height, bump the step
counter, re-read the height and raise the bound if it grew. -/
def scrollNext (heights : Nat → Nat) (V : Nat) (delay : Rat) (s : ScrollState) : ScrollState :=
  { currentPosition := s.currentPosition + V
    totalHeight :=
      if heights (s.scrollCount + 1) > s.totalHeight then heights (s.scrollCount + 1)
      else s.totalHeight
    scrollCount := s.scrollCount + 1
    trace := s.trace ++ [Action.scrollTo s.currentPosition, Action.sleep delay, Action.readHeight] }

/-- The while-loop of `_trigger_lazy_load` (lines 339-348 of the source). -/
def scrollLoop (heights : Nat → Nat) (V : Nat) (delay : Rat) (maxScrolls : Nat)
    (s : ScrollState) : ScrollState :=
  if _h : s.currentPosition < s.totalHeight ∧ s.scrollCount < maxScrolls then
    scrollLoop heights V delay maxScrolls (scrollNext heights V delay s)
  else s
termination_by maxScrolls - s.scrollCount
decreasing_by simp [scrollNext]; omega

/-- The scroll loop started from the state `_trigger_lazy_load` sets up:
position 0, bound = the initially read height, step counter 0. -/
def triggerLazyLoadLoop (heights : Nat → Nat) (V : Nat) (delay : Rat) (maxScrolls : Nat) :
    ScrollState :=
  scrollLoop heights V delay maxScrolls
    { currentPosition := 0, totalHeight := heights 0, scrollCount := 0, trace := [] }

/-- Full action trace of `_trigger_lazy_load`: initial height read, the loop,
scroll back to the top, one more sleep, and the best-effort network-idle
wait (its timeout is swallowed, so it never fails). -/
def triggerLazyLoadTrace (pg : Page) (delay : Rat) (maxScrolls : Nat) : List Action :=
  Action.readHeight :: (triggerLazyLoadLoop pg.heights pg.viewportHeight delay maxScrolls).trace
    ++ [Action.scrollTo 0, Action.sleep delay, Action.waitNetworkIdle]

/-- State of the spec's scroll state machine. -/
structure SpecScrollState where
  position : Nat
  currentMaxHeight : Nat
  stepsTaken : Nat

/-- Second definition for the refinement claim, following the spec's words
(section 4.1): state = position / currentMaxHeight / stepsTaken; while
`pos < H` and `n < maxSteps`, scroll, suspend, advance `pos` by `V`,
increment `n`, re-read the height and set `H` to it when it exceeds `H`. -/
def specScrollRun (heights : Nat → Nat) (V : Nat) (maxSteps : Nat)
    (s : SpecScrollState) : SpecScrollState :=
  if _h : s.position < s.currentMaxHeight ∧ s.stepsTaken < maxSteps then
    specScrollRun heights V maxSteps
      { position := s.position + V
        currentMaxHeight :=
          if heights (s.stepsTaken + 1) > s.currentMaxHeight then heights (s.stepsTaken + 1)
          else s.currentMaxHeight
        stepsTaken := s.stepsTaken + 1 }
  else s
termination_by maxSteps - s.stepsTaken
decreasing_by simp; omega

/-- Python dict assignment `m[k] = v`: overwrite in place when the key
exists (insertion position preserved), append otherwise. -/
def insertKV (m : List (String × String)) (k v : String) : List (String × String) :=
  if m.any (fun p => p.1 == k) then m.map (fun p => if p.1 == k then (k, v) else p)
  else m ++ [(k, v)]

/-- The fixed allow-list of `name`-attribute meta tags (`meta_names`). -/
def metaNames : List String := ["description", "keywords", "author", "viewport"]

/-- One pass of the allow-listed loop in `_extract_meta`: query the tag, read
its `content`, record it when present and non-empty; any failure of the query
or read is caught and the name is skipped. -/
def namedStep (q : String → Except Unit (Option Element))
    (m : List (String × String)) (name : String) : List (String × String) :=
  match q name with
  | Except.error _ => m
  | Except.ok none => m
  | Except.ok (some el) =>
    match el.attr "content" with
    | Except.error _ => m
    | Except.ok none => m
    | Except.ok (some c) => if c = "" then m else insertKV m name c

/-- One pass of the Open-Graph loop in `_extract_meta`: read `property` and
`content`; record only when both are present (truthy) and non-empty; a
failing read is caught and the tag is skipped. -/
def ogStep (m : List (String × String)) (tag : Element) : List (String × String) :=
  match tag.attr "property", tag.attr "content" with
  | Except.ok (some p), Except.ok (some c) => if p = "" ∨ c = "" then m else insertKV m p c
  | _, _ => m

/-- Embedding of `_extract_meta`. -/
def extractMeta (q : String → Except Unit (Option Element)) (ogTags : List Element) :
    List (String × String) :=
  ogTags.foldl ogStep (metaNames.foldl (namedStep q) [])

/-- Per-element body of the loop in `_extract_images`: `src` defaults to the
empty string, only images with a non-empty `src` are kept, the remaining
attributes default to the empty string; a failing read skips the element. -/
def imgStep (img : Element) : Option ImageInfo :=
  match img.attr "src" with
  | Except.error _ => none
  | Except.ok osrc =>
    if osrc.getD "" = "" then none
    else
      match img.attr "alt", img.attr "width", img.attr "height" with
      | Except.ok oalt, Except.ok ow, Except.ok oh =>
        some { src := osrc.getD "", alt := oalt.getD "", width := ow.getD "", height := oh.getD "" }
      | _, _, _ => none

/-- Embedding of `_extract_images`. -/
def extractImages (imgs : List Element) : List ImageInfo :=
  imgs.filterMap imgStep

/-- Python's `str.strip()` on a character list: drop leading and trailing
whitespace. -/
def stripChars (l : List Char) : List Char :=
  ((l.dropWhile Char.isWhitespace).reverse.dropWhile Char.isWhitespace).reverse

/-- Python's `str.strip()`. -/
def strip (s : String) : String := ⟨stripChars s.data⟩

/-- Per-element body of the inner loop of `_extract_headings`: read the inner
text, strip it, drop it when the result is empty; a failing read skips the
element. -/
def textStep (el : Element) : Option String :=
  match el.innerText with
  | Except.error _ => none
  | Except.ok t => if strip t = "" then none else some (strip t)

/-- Heading texts collected for one level. -/
def headingTexts (elems : List Element) : List String :=
  elems.filterMap textStep

/-- Embedding of `_extract_headings`: levels 1..6 in order, a level keyed
`h<level>` is present exactly when its text list is non-empty. -/
def extractHeadings (he : Nat → List Element) : List (String × List String) :=
  (List.range' 1 6).filterMap (fun level =>
    if headingTexts (he level) = [] then none
    else some ("h" ++ toString level, headingTexts (he level)))

/-- Embedding of `_extract_content`: the four top-level page reads are
sequenced and any failure propagates (they are not per-element reads). -/
def extractContentRun (pg : Page) (path : String) : Except PwError WebPageContent := do
  let u ← pg.urlVal
  let t ← pg.titleVal
  let txt ← pg.bodyTextVal
  let h ← pg.htmlVal
  pure { screenshot_path := path, url := u, title := t, text_content := txt, html := h
         , meta := extractMeta pg.metaQuery pg.ogTags
         , images := extractImages pg.imgElements
         , headings := extractHeadings pg.headingElems }

/-- Console message printed before navigation. -/
def visitMsg (url : String) : String := "正在访问: " ++ url

/-- Console message printed before the post-load wait. -/
def waitMsg (w : Int) : String := "等待 " ++ toString w ++ " 秒..."

/-- Console message printed before triggering lazy loading. -/
def lazyMsg : String := "触发懒加载内容..."

/-- Console message printed before the screenshot. -/
def shotMsg (p : String) : String := "正在截图: " ++ p

/-- Success message of `capture`. -/
def okMsg : String := "✅ 截图成功！"

/-- Console message printed before content extraction. -/
def extractingMsg : String := "正在提取页面内容..."

/-- Success message of `capture_full`. -/
def fullOkMsg : String := "✅ 截图和内容提取成功！"

/-- The text of the navigation-timeout diagnostic. -/
def timeoutText (t : Int) : String := "页面加载超时 (" ++ toString t ++ "ms)"

/-- Prefix shared by both error diagnostics. -/
def errPrefix : String := "❌ 错误: "

/-- Error line printed by the dedicated `PlaywrightTimeout` handler. -/
def timeoutMsg (t : Int) : String := errPrefix ++ timeoutText t

/-- Error line printed by the generic `Exception` handler. -/
def genericMsg (m : String) : String := errPrefix ++ m

/-- Embedding of `_load_page`: navigate, optionally wait, and trigger lazy
loading only when a full-page shot was requested and the scroll delay is
positive. -/
def loadPageRun (pg : Page) (url : String) (waitTime : Int) (fullPage : Bool)
    (scrollDelay : Rat) : Except PwError Unit × List Action :=
  let tr0 := [Action.print (visitMsg url), Action.goto url]
  match pg.gotoResult with
  | Except.error e => (Except.error e, tr0)
  | Except.ok _ =>
    let tr1 := tr0 ++ (if 0 < waitTime then [Action.print (waitMsg waitTime), Action.sleep (waitTime : Rat)] else [])
    let tr2 := tr1 ++ (if fullPage = true ∧ 0 < scrollDelay then
      Action.print lazyMsg :: triggerLazyLoadTrace pg scrollDelay 50 else [])
    (Except.ok (), tr2)

/-- Body of `capture` inside the `with sync_playwright()` block: launch,
open a page, set the default timeout, load, screenshot, close the browser. -/
def captureBody (cfg : Config) (env : Env) : Except PwError Unit × List Action :=
  match env.launchResult with
  | Except.error e => (Except.error e, [Action.launch])
  | Except.ok _ =>
    match env.newPageResult with
    | Except.error e => (Except.error e, [Action.launch, Action.newPage])
    | Except.ok _ =>
      let pre := [Action.launch, Action.newPage, Action.setTimeout cfg.timeout]
      match loadPageRun env.page cfg.url cfg.waitTime cfg.fullPage cfg.scrollDelay with
      | (Except.error e, tr) => (Except.error e, pre ++ tr)
      | (Except.ok _, tr) =>
        let tr2 := pre ++ tr ++ [Action.print (shotMsg cfg.outputPath), Action.screenshot cfg.outputPath]
        match env.page.screenshotResult with
        | Except.error e => (Except.error e, tr2)
        | Except.ok _ => (Except.ok (), tr2 ++ [Action.closeBrowser, Action.print okMsg])

/-- Embedding of `WebScreenshot.capture`: leaving the `with` block stops the
playwright driver (releasing any launched browser) on every path; the two
`except` clauses then print their diagnostics and return `False`. -/
def capture (cfg : Config) (env : Env) : Bool × List Action :=
  match captureBody cfg env with
  | (Except.ok _, tr) => (true, tr ++ [Action.stopPlaywright])
  | (Except.error PwError.timeout, tr) =>
    (false, tr ++ [Action.stopPlaywright, Action.print (timeoutMsg cfg.timeout)])
  | (Except.error (PwError.other m), tr) =>
    (false, tr ++ [Action.stopPlaywright, Action.print (genericMsg m)])

/-- Body of `capture_full` inside the `with` block: like `captureBody`, then
content extraction from the same still-open page before the browser closes. -/
def captureFullBody (cfg : Config) (env : Env) : Except PwError WebPageContent × List Action :=
  match env.launchResult with
  | Except.error e => (Except.error e, [Action.launch])
  | Except.ok _ =>
    match env.newPageResult with
    | Except.error e => (Except.error e, [Action.launch, Action.newPage])
    | Except.ok _ =>
      let pre := [Action.launch, Action.newPage, Action.setTimeout cfg.timeout]
      match loadPageRun env.page cfg.url cfg.waitTime cfg.fullPage cfg.scrollDelay with
      | (Except.error e, tr) => (Except.error e, pre ++ tr)
      | (Except.ok _, tr) =>
        let tr2 := pre ++ tr ++ [Action.print (shotMsg cfg.outputPath), Action.screenshot cfg.outputPath]
        match env.page.screenshotResult with
        | Except.error e => (Except.error e, tr2)
        | Except.ok _ =>
          let tr3 := tr2 ++ [Action.print extractingMsg]
          match extractContentRun env.page cfg.outputPath with
          | Except.error e => (Except.error e, tr3)
          | Except.ok c => (Except.ok c, tr3 ++ [Action.closeBrowser, Action.print fullOkMsg])

/-- Embedding of `WebScreenshot.capture_full`: returns the content model on
success and `none` on any failure, after the same teardown as `capture`. -/
def captureFull (cfg : Config) (env : Env) : Option WebPageContent × List Action :=
  match captureFullBody cfg env with
  | (Except.ok c, tr) => (some c, tr ++ [Action.stopPlaywright])
  | (Except.error PwError.timeout, tr) =>
    (none, tr ++ [Action.stopPlaywright, Action.print (timeoutMsg cfg.timeout)])
  | (Except.error (PwError.other m), tr) =>
    (none, tr ++ [Action.stopPlaywright, Action.print (genericMsg m)])

/-- Number of scroll operations in a trace. -/
def countScroll (tr : List Action) : Nat :=
  tr.countP (fun a => match a with | Action.scrollTo _ => true | _ => false)

/-- The console lines printed during a trace, in order. -/
def printed (tr : List Action) : List String :=
  tr.filterMap (fun a => match a with | Action.print s => some s | _ => none)

/-- A page on which every engine call succeeds and every query is empty. -/
def basePage : Page :=
  { heights := fun _ => 0, viewportHeight := 0
  , gotoResult := Except.ok (), screenshotResult := Except.ok ()
  , urlVal := Except.ok "https://example.com", titleVal := Except.ok "Example"
  , bodyTextVal := Except.ok "", htmlVal := Except.ok ""
  , metaQuery := fun _ => Except.ok none, ogTags := [], imgElements := []
  , headingElems := fun _ => [] }

/-- A representative request (the source's defaults with a zero scroll delay). -/
def baseCfg : Config :=
  { url := "https://example.com", outputPath := "out.png", fullPage := true
  , viewportWidth := 1920, viewportHeight := 1080, waitTime := 3, scrollDelay := 0
  , timeout := 30000 }

/-- An environment where everything succeeds. -/
def baseEnv : Env :=
  { launchResult := Except.ok (), newPageResult := Except.ok (), page := basePage }

/-- An environment whose navigation raises `PlaywrightTimeout`. -/
def envTimeout : Env :=
  { launchResult := Except.ok (), newPageResult := Except.ok ()
  , page := { basePage with gotoResult := Except.error PwError.timeout } }

/-- An environment whose navigation raises a generic exception. -/
def envGeneric : Env :=
  { launchResult := Except.ok (), newPageResult := Except.ok ()
  , page := { basePage with gotoResult := Except.error (PwError.other "boom") } }

theorem scrollLoop_stop (heights : Nat → Nat) (V : Nat) (delay : Rat) (maxS : Nat)
    (s : ScrollState) (h : ¬(s.currentPosition < s.totalHeight ∧ s.scrollCount < maxS)) :
    scrollLoop heights V delay maxS s = s := by
  rw [scrollLoop]
  simp [h]

theorem scrollLoop_step (heights : Nat → Nat) (V : Nat) (delay : Rat) (maxS : Nat)
    (s : ScrollState) (h : s.currentPosition < s.totalHeight ∧ s.scrollCount < maxS) :
    scrollLoop heights V delay maxS s
      = scrollLoop heights V delay maxS (scrollNext heights V delay s) := by
  rw [scrollLoop]
  simp [h]

theorem specScrollRun_stop (heights : Nat → Nat) (V : Nat) (maxS : Nat)
    (s : SpecScrollState) (h : ¬(s.position < s.currentMaxHeight ∧ s.stepsTaken < maxS)) :
    specScrollRun heights V maxS s = s := by
  rw [specScrollRun]
  simp [h]

theorem specScrollRun_step (heights : Nat → Nat) (V : Nat) (maxS : Nat)
    (s : SpecScrollState) (h : s.position < s.currentMaxHeight ∧ s.stepsTaken < maxS) :
    specScrollRun heights V maxS s
      = specScrollRun heights V maxS
          { position := s.position + V
            currentMaxHeight :=
              if heights (s.stepsTaken + 1) > s.currentMaxHeight then heights (s.stepsTaken + 1)
              else s.currentMaxHeight
            stepsTaken := s.stepsTaken + 1 } := by
  rw [specScrollRun]
  simp [h]

theorem scrollLoop_master (heights : Nat → Nat) (V : Nat) (delay : Rat) (maxS : Nat) :
    ∀ (k : Nat) (s : ScrollState), maxS - s.scrollCount ≤ k →
      ((scrollLoop heights V delay maxS s).scrollCount ≤ maxS
        ∨ (scrollLoop heights V delay maxS s).scrollCount ≤ s.scrollCount) ∧
      s.scrollCount ≤ (scrollLoop heights V delay maxS s).scrollCount ∧
      s.totalHeight ≤ (scrollLoop heights V delay maxS s).totalHeight ∧
      countScroll (scrollLoop heights V delay maxS s).trace + s.scrollCount
        = countScroll s.trace + (scrollLoop heights V delay maxS s).scrollCount ∧
      (∀ ss : SpecScrollState, ss.position = s.currentPosition →
        ss.currentMaxHeight = s.totalHeight → ss.stepsTaken = s.scrollCount →
        (specScrollRun heights V maxS ss).position
            = (scrollLoop heights V delay maxS s).currentPosition ∧
        (specScrollRun heights V maxS ss).currentMaxHeight
            = (scrollLoop heights V delay maxS s).totalHeight ∧
        (specScrollRun heights V maxS ss).stepsTaken
            = (scrollLoop heights V delay maxS s).scrollCount) := by
  intro k
  induction k with
  | zero =>
    intro s hk
    have hg : ¬(s.currentPosition < s.totalHeight ∧ s.scrollCount < maxS) := by
      rintro ⟨_, h2⟩; omega
    rw [scrollLoop_stop heights V delay maxS s hg]
    refine ⟨Or.inr (Nat.le_refl _), Nat.le_refl _, Nat.le_refl _, rfl, ?_⟩
    intro ss h1 h2 h3
    have hgs : ¬(ss.position < ss.currentMaxHeight ∧ ss.stepsTaken < maxS) := by
      rw [h1, h2, h3]; exact hg
    rw [specScrollRun_stop heights V maxS ss hgs]
    exact ⟨h1, h2, h3⟩
  | succ k ih =>
    intro s hk
    by_cases hg : s.currentPosition < s.totalHeight ∧ s.scrollCount < maxS
    · rw [scrollLoop_step heights V delay maxS s hg]
      have hc : (scrollNext heights V delay s).scrollCount = s.scrollCount + 1 := rfl
      have hk' : maxS - (scrollNext heights V delay s).scrollCount ≤ k := by
        rw [hc]; omega
      obtain ⟨i1, i2, i3, i4, i5⟩ := ih (scrollNext heights V delay s) hk'
      have hh : s.totalHeight ≤ (scrollNext heights V delay s).totalHeight := by
        simp only [scrollNext]
        split <;> omega
      have hcount : countScroll (scrollNext heights V delay s).trace = countScroll s.trace + 1 := by
        simp [scrollNext, countScroll, List.countP_append]
      refine ⟨?_, ?_, Nat.le_trans hh i3, ?_, ?_⟩
      · rcases i1 with h' | h'
        · exact Or.inl h'
        · exact Or.inl (by rw [hc] at h'; omega)
      · rw [hc] at i2; omega
      · rw [hcount, hc] at i4; omega
      · intro ss h1 h2 h3
        have hgs : ss.position < ss.currentMaxHeight ∧ ss.stepsTaken < maxS := by
          rw [h1, h2, h3]; exact hg
        rw [specScrollRun_step heights V maxS ss hgs]
        refine i5 _ ?_ ?_ ?_
        · simp [scrollNext, h1]
        · simp only [scrollNext, h2, h3]
        · simp [scrollNext, h3]
    · rw [scrollLoop_stop heights V delay maxS s hg]
      refine ⟨Or.inr (Nat.le_refl _), Nat.le_refl _, Nat.le_refl _, rfl, ?_⟩
      intro ss h1 h2 h3
      have hgs : ¬(ss.position < ss.currentMaxHeight ∧ ss.stepsTaken < maxS) := by
        rw [h1, h2, h3]; exact hg
      rw [specScrollRun_stop heights V maxS ss hgs]
      exact ⟨h1, h2, h3⟩

/-- C1: the lazy-load scroll loop follows exactly the spec's algorithm: with
`H` the initially read height and `V` the viewport height, starting at
`pos = 0`, `n = 0`, while `pos < H ∧ n < maxSteps` it scrolls to `pos`,
sleeps, advances `pos` by `V`, increments `n`, re-reads the height and
raises the bound whenever it grew; the code loop and the spec's state
machine agree on every height oracle, and the bound is never lowered. -/
theorem scroll_loop_refines_spec_machine (heights : Nat → Nat) (V : Nat) (delay : Rat)
    (maxS : Nat) :
    (specScrollRun heights V maxS
        { position := 0, currentMaxHeight := heights 0, stepsTaken := 0 }).position
      = (triggerLazyLoadLoop heights V delay maxS).currentPosition ∧
    (specScrollRun heights V maxS
        { position := 0, currentMaxHeight := heights 0, stepsTaken := 0 }).currentMaxHeight
      = (triggerLazyLoadLoop heights V delay maxS).totalHeight ∧
    (specScrollRun heights V maxS
        { position := 0, currentMaxHeight := heights 0, stepsTaken := 0 }).stepsTaken
      = (triggerLazyLoadLoop heights V delay maxS).scrollCount ∧
    heights 0 ≤ (triggerLazyLoadLoop heights V delay maxS).totalHeight ∧
    countScroll (triggerLazyLoadLoop heights V delay maxS).trace
      = (triggerLazyLoadLoop heights V delay maxS).scrollCount := by
  obtain ⟨_, _, h3, h4, h5⟩ := scrollLoop_master heights V delay maxS maxS
    { currentPosition := 0, totalHeight := heights 0, scrollCount := 0, trace := [] }
    (by omega)
  obtain ⟨s1, s2, s3⟩ := h5 { position := 0, currentMaxHeight := heights 0, stepsTaken := 0 }
    rfl rfl rfl
  exact ⟨s1, s2, s3, h3, by simpa [triggerLazyLoadLoop, countScroll] using h4⟩

/-- C2: for every height oracle — including one that grows arbitrarily on
each re-measurement — the scroll loop performs at most `maxSteps` iterations
(and is a total function, hence terminates). -/
theorem scroll_loop_step_cap (heights : Nat → Nat) (V : Nat) (delay : Rat) (maxS : Nat) :
    (triggerLazyLoadLoop heights V delay maxS).scrollCount ≤ maxS ∧
    countScroll (triggerLazyLoadLoop heights V delay maxS).trace ≤ maxS := by
  obtain ⟨h1, _, _, h4, _⟩ := scrollLoop_master heights V delay maxS maxS
    { currentPosition := 0, totalHeight := heights 0, scrollCount := 0, trace := [] }
    (by omega)
  have hcap : (triggerLazyLoadLoop heights V delay maxS).scrollCount ≤ maxS := by
    rcases h1 with h' | h'
    · exact h'
    · exact Nat.le_trans h' (Nat.zero_le _)
  refine ⟨hcap, ?_⟩
  have : countScroll (triggerLazyLoadLoop heights V delay maxS).trace
      = (triggerLazyLoadLoop heights V delay maxS).scrollCount := by
    simpa [triggerLazyLoadLoop, countScroll] using h4
  omega

theorem captureBody_goto_error (cfg : Config) (env : Env) (e : PwError)
    (hL : env.launchResult = Except.ok ()) (hN : env.newPageResult = Except.ok ())
    (hG : env.page.gotoResult = Except.error e) :
    captureBody cfg env
      = (Except.error e,
         [Action.launch, Action.newPage, Action.setTimeout cfg.timeout,
          Action.print (visitMsg cfg.url), Action.goto cfg.url]) := by
  simp [captureBody, hL, hN, loadPageRun, hG]

theorem captureFullBody_goto_error (cfg : Config) (env : Env) (e : PwError)
    (hL : env.launchResult = Except.ok ()) (hN : env.newPageResult = Except.ok ())
    (hG : env.page.gotoResult = Except.error e) :
    captureFullBody cfg env
      = (Except.error e,
         [Action.launch, Action.newPage, Action.setTimeout cfg.timeout,
          Action.print (visitMsg cfg.url), Action.goto cfg.url]) := by
  simp [captureFullBody, hL, hN, loadPageRun, hG]

theorem string_append_left_cancel {s a b : String} (h : s ++ a = s ++ b) : a = b := by
  have hd := congrArg String.data h
  simp only [String.data_append] at hd
  exact String.ext (List.append_cancel_left hd)

/-- C3: when navigation exceeds the configured timeout, `capture` returns
`False` and `capture_full` returns `None` — an explicit failure value, not a
partially-populated snapshot. -/
theorem nav_timeout_returns_failure (cfg : Config) (env : Env)
    (hL : env.launchResult = Except.ok ()) (hN : env.newPageResult = Except.ok ())
    (hG : env.page.gotoResult = Except.error PwError.timeout) :
    (capture cfg env).1 = false ∧ (captureFull cfg env).1 = none := by
  have h1 := captureBody_goto_error cfg env PwError.timeout hL hN hG
  have h2 := captureFullBody_goto_error cfg env PwError.timeout hL hN hG
  constructor
  · rw [capture, h1]
  · rw [captureFull, h2]

theorem nav_timeout_returns_failure_witness :
    (capture baseCfg envTimeout).1 = false ∧ (captureFull baseCfg envTimeout).1 = none :=
  nav_timeout_returns_failure baseCfg envTimeout rfl rfl rfl

/-- C4: on the image-capture path a navigation timeout is reported through
the dedicated handler — the run prints exactly the navigation line and the
timeout diagnostic (a function of the configured timeout only), while any
other failure prints the generic diagnostic carrying the exception message;
the two reports differ whenever the generic message is not literally the
timeout text. -/
theorem nav_timeout_reported_distinctly (cfg : Config) (env : Env) (m : String)
    (hL : env.launchResult = Except.ok ()) (hN : env.newPageResult = Except.ok ()) :
    (env.page.gotoResult = Except.error PwError.timeout →
      (capture cfg env).1 = false ∧
      printed (capture cfg env).2 = [visitMsg cfg.url, timeoutMsg cfg.timeout]) ∧
    (env.page.gotoResult = Except.error (PwError.other m) →
      (capture cfg env).1 = false ∧
      printed (capture cfg env).2 = [visitMsg cfg.url, genericMsg m]) ∧
    (m ≠ timeoutText cfg.timeout → genericMsg m ≠ timeoutMsg cfg.timeout) := by
  refine ⟨?_, ?_, ?_⟩
  · intro hG
    have h1 := captureBody_goto_error cfg env PwError.timeout hL hN hG
    rw [capture, h1]
    simp [printed]
  · intro hG
    have h1 := captureBody_goto_error cfg env (PwError.other m) hL hN hG
    rw [capture, h1]
    simp [printed]
  · intro hm hcontra
    exact hm (string_append_left_cancel hcontra)

theorem nav_timeout_reported_distinctly_witness :
    ((capture baseCfg envTimeout).1 = false ∧
      printed (capture baseCfg envTimeout).2 = [visitMsg baseCfg.url, timeoutMsg baseCfg.timeout]) ∧
    ((capture baseCfg envGeneric).1 = false ∧
      printed (capture baseCfg envGeneric).2 = [visitMsg baseCfg.url, genericMsg "boom"]) ∧
    genericMsg "boom" ≠ timeoutMsg baseCfg.timeout :=
  ⟨(nav_timeout_reported_distinctly baseCfg envTimeout "boom" rfl rfl).1 rfl,
   (nav_timeout_reported_distinctly baseCfg envGeneric "boom" rfl rfl).2.1 rfl,
   (nav_timeout_reported_distinctly baseCfg envGeneric "boom" rfl rfl).2.2 (by decide)⟩

/-- C5: on every exit path of `capture` and `capture_full` — success,
navigation timeout, or any other failure — leaving the `with
sync_playwright()` block stops the driver before the function returns,
releasing the browser; on the success path `browser.close()` is also
called. -/
theorem browser_released_on_every_exit (cfg : Config) (env : Env) :
    Action.stopPlaywright ∈ (capture cfg env).2 ∧
    Action.stopPlaywright ∈ (captureFull cfg env).2 ∧
    ((capture cfg env).1 = true → Action.closeBrowser ∈ (capture cfg env).2) := by
  refine ⟨?_, ?_, ?_⟩
  · rcases hb : captureBody cfg env with ⟨res, tr⟩
    rcases res with e | u
    · rcases e with _ | m <;> simp [capture, hb]
    · simp [capture, hb]
  · rcases hb : captureFullBody cfg env with ⟨res, tr⟩
    rcases res with e | u
    · rcases e with _ | m <;> simp [captureFull, hb]
    · simp [captureFull, hb]
  · intro htrue
    rcases hb : captureBody cfg env with ⟨res, tr⟩
    rcases res with e | u
    · exfalso
      rcases e with _ | m <;> (rw [capture, hb] at htrue; simp at htrue)
    · have hclose : Action.closeBrowser ∈ tr := by
        rcases hLr : env.launchResult with eL | uL
        · rw [captureBody, hLr] at hb; simp at hb
        · rcases hNr : env.newPageResult with eN | uN
          · rw [captureBody, hLr, hNr] at hb; simp at hb
          · rcases hLP : loadPageRun env.page cfg.url cfg.waitTime cfg.fullPage cfg.scrollDelay
              with ⟨lr, ltr⟩
            rcases lr with eLP | uLP
            · rw [captureBody, hLr, hNr] at hb
              simp [hLP] at hb
            · rcases hS : env.page.screenshotResult with eS | uS
              · rw [captureBody, hLr, hNr] at hb
                simp [hLP, hS] at hb
              · rw [captureBody, hLr, hNr] at hb
                simp [hLP, hS] at hb
                rw [← hb]
                simp
      simp [capture, hb, hclose]

theorem browser_released_on_every_exit_witness :
    Action.closeBrowser ∈ (capture baseCfg baseEnv).2 :=
  (browser_released_on_every_exit baseCfg baseEnv).2.2 (by decide)

/-- C6: when no full-page shot was requested or the scroll delay is zero or
negative, `_load_page` skips the lazy-load trigger entirely: the run performs
zero scroll operations and never waits for network idle. -/
theorem lazy_load_skipped (pg : Page) (url : String) (w : Int) (fp : Bool) (sd : Rat)
    (h : fp = false ∨ sd ≤ 0) :
    countScroll (loadPageRun pg url w fp sd).2 = 0 ∧
    Action.waitNetworkIdle ∉ (loadPageRun pg url w fp sd).2 := by
  have hcond : ¬(fp = true ∧ 0 < sd) := by
    rintro ⟨h1, h2⟩
    rcases h with h | h
    · rw [h] at h1; exact Bool.false_ne_true h1
    · exact absurd h2 (not_lt.mpr h)
  rcases hG : pg.gotoResult with e | u
  · simp [loadPageRun, hG, countScroll]
  · by_cases hw : 0 < w <;>
      simp [loadPageRun, hG, hcond, hw, countScroll, List.countP_append]

theorem lazy_load_skipped_witness :
    countScroll (loadPageRun basePage "https://example.com" 3 false 1).2 = 0 ∧
    Action.waitNetworkIdle ∉ (loadPageRun basePage "https://example.com" 3 false 1).2 :=
  lazy_load_skipped basePage "https://example.com" 3 false 1 (Or.inl rfl)

/-- Attribute value with the Python `or ''` default: the empty string when
the attribute is absent (or the read failed). -/
def attrD (img : Element) (n : String) : String :=
  match img.attr n with
  | Except.ok o => o.getD ""
  | Except.error _ => ""

/-- Whether an attribute read succeeds. -/
def attrOk (img : Element) (n : String) : Bool :=
  match img.attr n with
  | Except.ok _ => true
  | Except.error _ => false

/-- All four attribute reads performed on an image element succeed. -/
def readsOk (img : Element) : Prop :=
  attrOk img "src" = true ∧ attrOk img "alt" = true ∧
    attrOk img "width" = true ∧ attrOk img "height" = true

instance (img : Element) : Decidable (readsOk img) := by
  unfold readsOk; infer_instance

/-- Claim-side description of one retained image: kept exactly when its
source attribute is non-empty, with alt, width and height defaulting to the
empty string when absent. -/
def imageOf (img : Element) : Option ImageInfo :=
  if attrD img "src" = "" then none
  else some { src := attrD img "src", alt := attrD img "alt"
            , width := attrD img "width", height := attrD img "height" }

/-- Scenario fixture: an image element carrying a `src`. -/
def imgWithSrc (s : String) : Element :=
  ⟨fun n => if n = "src" then Except.ok (some s) else Except.ok none, Except.ok ""⟩

/-- Scenario fixture: an image element without a `src`. -/
def imgNoSrc : Element := ⟨fun _ => Except.ok none, Except.ok ""⟩

/-- Scenario fixture of C7: three images with a source, one without. -/
def exImgs : List Element :=
  [imgWithSrc "a.png", imgWithSrc "b.png", imgWithSrc "c.png", imgNoSrc]

theorem imgStep_src_ne (img : Element) (i : ImageInfo) (h : imgStep img = some i) :
    i.src ≠ "" := by
  unfold imgStep at h
  split at h
  · simp at h
  · split at h
    · simp at h
    · rename_i hcond
      split at h
      · rw [← Option.some.inj h]
        exact hcond
      · simp at h

theorem imgStep_eq_imageOf (img : Element) (h : readsOk img) : imgStep img = imageOf img := by
  obtain ⟨h1, h2, h3, h4⟩ := h
  rcases ha : img.attr "src" with e | osrc
  · rw [attrOk, ha] at h1; simp at h1
  · rcases hb : img.attr "alt" with e | oalt
    · rw [attrOk, hb] at h2; simp at h2
    · rcases hc : img.attr "width" with e | ow
      · rw [attrOk, hc] at h3; simp at h3
      · rcases hd : img.attr "height" with e | oh
        · rw [attrOk, hd] at h4; simp at h4
        · rw [imgStep, imageOf, ha, hb, hc, hd]
          simp only [attrD, ha, hb, hc, hd]

/-- C7: the extracted image list is exactly the image elements whose source
attribute is non-empty, in document order, with alt, width and height
defaulting to the empty string (when every element read succeeds); no entry
ever has an empty source; and on the scenario page with three images with a
`src` and one without, the resulting list has length 3. -/
theorem images_extraction_exact :
    (∀ imgs : List Element,
      (∀ i ∈ extractImages imgs, i.src ≠ "") ∧
      ((∀ img ∈ imgs, readsOk img) → extractImages imgs = imgs.filterMap imageOf)) ∧
    (extractImages exImgs).length = 3 := by
  refine ⟨fun imgs => ⟨?_, ?_⟩, by decide⟩
  · intro i hi
    obtain ⟨img, _, hstep⟩ := List.mem_filterMap.mp hi
    exact imgStep_src_ne img i hstep
  · intro hok
    exact List.filterMap_congr (fun img hmem => imgStep_eq_imageOf img (hok img hmem))

theorem images_extraction_exact_witness :
    extractImages exImgs = exImgs.filterMap imageOf :=
  (images_extraction_exact.1 exImgs).2 (by decide)

/-- Scenario fixture: a heading element with inner text `s`. -/
def headingEl (s : String) : Element := ⟨fun _ => Except.ok none, Except.ok s⟩

/-- Scenario fixture of C8: `<h1>A</h1><h1>  </h1><h2>B</h2>`. -/
def exHe : Nat → List Element := fun l =>
  if l = 1 then [headingEl "A", headingEl "  "]
  else if l = 2 then [headingEl "B"] else []

/-- C8: heading extraction strips each element's text, discards empty
results, records a level key only when its list is non-empty; every recorded
entry is `h<level>` for a level in 1..6 with that level's non-empty text
list, and every such non-empty level is recorded; each collected text is the
non-empty stripped text of some element; on the scenario page
`<h1>A</h1><h1>  </h1><h2>B</h2>` the result is exactly
`{h1: ["A"], h2: ["B"]}`. -/
theorem headings_extraction_exact :
    (∀ he : Nat → List Element,
      (∀ p ∈ extractHeadings he, p.2 ≠ []) ∧
      (∀ p ∈ extractHeadings he, ∃ level, 1 ≤ level ∧ level ≤ 6 ∧
        p = ("h" ++ toString level, headingTexts (he level)) ∧ headingTexts (he level) ≠ []) ∧
      (∀ level, 1 ≤ level → level ≤ 6 → headingTexts (he level) ≠ [] →
        ("h" ++ toString level, headingTexts (he level)) ∈ extractHeadings he)) ∧
    (∀ elems s, s ∈ headingTexts elems →
      s ≠ "" ∧ ∃ el ∈ elems, ∃ t, el.innerText = Except.ok t ∧ s = strip t) ∧
    extractHeadings exHe = [("h1", ["A"]), ("h2", ["B"])] := by
  refine ⟨fun he => ⟨?_, ?_, ?_⟩, ?_, by decide⟩
  · intro p hp
    obtain ⟨level, _, hsome⟩ := List.mem_filterMap.mp hp
    by_cases hts : headingTexts (he level) = []
    · simp [hts] at hsome
    · rw [if_neg hts] at hsome
      rw [← Option.some.inj hsome]
      simpa using hts
  · intro p hp
    obtain ⟨level, hmem, hsome⟩ := List.mem_filterMap.mp hp
    obtain ⟨i, hi, hlev⟩ := List.mem_range'.mp hmem
    by_cases hts : headingTexts (he level) = []
    · simp [hts] at hsome
    · rw [if_neg hts] at hsome
      exact ⟨level, by omega, by omega, (Option.some.inj hsome).symm, hts⟩
  · intro level h1 h6 hts
    refine List.mem_filterMap.mpr ⟨level, ?_, ?_⟩
    · exact List.mem_range'.mpr ⟨level - 1, by omega, by omega⟩
    · simp [hts]
  · intro elems s hs
    obtain ⟨el, hel, hstep⟩ := List.mem_filterMap.mp hs
    unfold textStep at hstep
    split at hstep
    · simp at hstep
    · rename_i t ht
      by_cases hemp : strip t = ""
      · simp [hemp] at hstep
      · rw [if_neg hemp] at hstep
        have hst := Option.some.inj hstep
        exact ⟨by rw [← hst]; exact hemp, el, hel, t, ht, hst.symm⟩

theorem headings_extraction_exact_witness :
    ("h1", headingTexts (exHe 1)) ∈ extractHeadings exHe :=
  (headings_extraction_exact.1 exHe).2.2 1 (by decide) (by decide) (by decide)

/-- An element on which every read fails (every attribute read and the
inner-text read raise). -/
def BadElem (e : Element) : Prop :=
  (∀ n, e.attr n = Except.error ()) ∧ e.innerText = Except.error ()

/-- Python truthiness of the `if prop and content` guard in `_extract_meta`:
both attributes present and non-empty. -/
def ogTruthy (tag : Element) : Bool :=
  match tag.attr "property", tag.attr "content" with
  | Except.ok (some p), Except.ok (some c) => !(p == "") && !(c == "")
  | _, _ => false

theorem namedFold_congr (q q' : String → Except Unit (Option Element))
    (hq : ∀ n, q n = q' n ∨ (q n = Except.error () ∧ q' n = Except.ok none)) :
    ∀ (names : List String) (m : List (String × String)),
      names.foldl (namedStep q) m = names.foldl (namedStep q') m := by
  intro names
  induction names with
  | nil => intro m; rfl
  | cons n ns ih =>
    intro m
    have hstep : namedStep q m n = namedStep q' m n := by
      rcases hq n with h | ⟨h1, h2⟩
      · rw [namedStep, namedStep, h]
      · rw [namedStep, namedStep, h1, h2]
    rw [List.foldl_cons, List.foldl_cons, hstep]
    exact ih (namedStep q' m n)

theorem ogStep_not_truthy (tag : Element) (h : ogTruthy tag = false)
    (m : List (String × String)) : ogStep m tag = m := by
  rcases hp : tag.attr "property" with e | op
  · simp [ogStep, hp]
  · rcases op with _ | p
    · simp [ogStep, hp]
    · rcases hc : tag.attr "content" with e | oc
      · simp [ogStep, hp, hc]
      · rcases oc with _ | c
        · simp [ogStep, hp, hc]
        · rw [ogTruthy, hp, hc] at h
          have hor : p = "" ∨ c = "" := by
            by_cases hpe : p = ""
            · exact Or.inl hpe
            · by_cases hce : c = ""
              · exact Or.inr hce
              · exfalso; simp [hpe, hce] at h
          simp only [ogStep, hp, hc]
          rw [if_pos hor]

theorem mem_keys_insertKV_self (m : List (String × String)) (k v : String) :
    k ∈ (insertKV m k v).map Prod.fst := by
  unfold insertKV
  by_cases hany : m.any (fun p => p.1 == k)
  · rw [if_pos hany]
    obtain ⟨p, hp, hpk⟩ := List.any_eq_true.mp hany
    refine List.mem_map.mpr ⟨(k, v), List.mem_map.mpr ⟨p, hp, ?_⟩, rfl⟩
    rw [if_pos hpk]
  · rw [if_neg hany]
    simp

theorem mem_keys_insertKV_mono (m : List (String × String)) (k v k' : String)
    (h : k' ∈ m.map Prod.fst) : k' ∈ (insertKV m k v).map Prod.fst := by
  unfold insertKV
  by_cases hany : m.any (fun p => p.1 == k)
  · rw [if_pos hany]
    obtain ⟨p, hp, hfst⟩ := List.mem_map.mp h
    refine List.mem_map.mpr ⟨if p.1 == k then (k, v) else p, List.mem_map.mpr ⟨p, hp, rfl⟩, ?_⟩
    by_cases hpk : (p.1 == k) = true
    · rw [if_pos hpk]
      rw [← hfst]
      exact (beq_iff_eq.mp hpk).symm
    · rw [if_neg hpk]
      exact hfst
  · rw [if_neg hany]
    simp only [List.map_append, List.mem_append]
    exact Or.inl h

theorem ogStep_keys_mono (m : List (String × String)) (t : Element) (k : String)
    (h : k ∈ m.map Prod.fst) : k ∈ (ogStep m t).map Prod.fst := by
  rcases hp : t.attr "property" with e | op
  · simpa [ogStep, hp] using h
  · rcases op with _ | p
    · simpa [ogStep, hp] using h
    · rcases hc : t.attr "content" with e | oc
      · simpa [ogStep, hp, hc] using h
      · rcases oc with _ | c
        · simpa [ogStep, hp, hc] using h
        · simp only [ogStep, hp, hc]
          by_cases hor : p = "" ∨ c = ""
          · rw [if_pos hor]; exact h
          · rw [if_neg hor]; exact mem_keys_insertKV_mono m p c k h

theorem ogFold_keys_mono (tags : List Element) :
    ∀ (m : List (String × String)) (k : String), k ∈ m.map Prod.fst →
      k ∈ (tags.foldl ogStep m).map Prod.fst := by
  induction tags with
  | nil => intro m k h; exact h
  | cons t ts ih =>
    intro m k h
    rw [List.foldl_cons]
    exact ih (ogStep m t) k (ogStep_keys_mono m t k h)

theorem ogFold_records (tags : List Element) :
    ∀ (m : List (String × String)) (tag : Element) (p c : String), tag ∈ tags →
      tag.attr "property" = Except.ok (some p) → p ≠ "" →
      tag.attr "content" = Except.ok (some c) → c ≠ "" →
      p ∈ (tags.foldl ogStep m).map Prod.fst := by
  induction tags with
  | nil => intro m tag p c h; exact absurd h (List.not_mem_nil tag)
  | cons t ts ih =>
    intro m tag p c htag hp hpne hc hcne
    rw [List.foldl_cons]
    rcases List.mem_cons.mp htag with heq | hmem
    · subst heq
      have hstep : ogStep m tag = insertKV m p c := by
        simp only [ogStep, hp, hc]
        rw [if_neg]
        rintro (h | h)
        · exact hpne h
        · exact hcne h
      rw [hstep]
      exact ogFold_keys_mono ts (insertKV m p c) p (mem_keys_insertKV_self m p c)
    · exact ih (ogStep m t) tag p c hmem hp hpne hc hcne

/-- C9: a failure reading any single element is caught at that element: a
fully failing element is skipped and contributes nothing — dropping it from
the image list, a heading list, or the Open-Graph tag list leaves the
extraction of all sibling elements unchanged — and a failing allow-listed
meta query behaves exactly like an absent tag, leaving the other names and
categories untouched. -/
theorem element_failures_contained (bad : Element) (hb : BadElem bad) :
    (∀ pre post, extractImages (pre ++ bad :: post) = extractImages (pre ++ post)) ∧
    (∀ pre post, headingTexts (pre ++ bad :: post) = headingTexts (pre ++ post)) ∧
    (∀ (q : String → Except Unit (Option Element)) pre post,
      extractMeta q (pre ++ bad :: post) = extractMeta q (pre ++ post)) ∧
    (∀ (q q' : String → Except Unit (Option Element)) (og : List Element),
      (∀ n, q n = q' n ∨ (q n = Except.error () ∧ q' n = Except.ok none)) →
      extractMeta q og = extractMeta q' og) := by
  refine ⟨?_, ?_, ?_, ?_⟩
  · intro pre post
    simp [extractImages, List.filterMap_append, List.filterMap_cons, imgStep, hb.1]
  · intro pre post
    simp [headingTexts, List.filterMap_append, List.filterMap_cons, textStep, hb.2]
  · intro q pre post
    simp [extractMeta, List.foldl_append, List.foldl_cons, ogStep, hb.1]
  · intro q q' og hq
    unfold extractMeta
    rw [namedFold_congr q q' hq metaNames []]

/-- Fixture: an element on which every read raises. -/
def badEl : Element := ⟨fun _ => Except.error (), Except.error ()⟩

theorem element_failures_contained_witness :
    extractImages ([imgWithSrc "a.png"] ++ badEl :: [imgNoSrc])
      = extractImages ([imgWithSrc "a.png"] ++ [imgNoSrc]) :=
  (element_failures_contained badEl ⟨fun _ => rfl, rfl⟩).1 [imgWithSrc "a.png"] [imgNoSrc]

/-- C10: an Open-Graph tag is recorded in the meta index only when both its
`property` and `content` reads yield non-empty values (a tag failing the
truthiness guard contributes nothing, so one with missing or empty content
is silently omitted), and a tag with non-empty property and content always
gets its property recorded as a key. -/
theorem og_meta_requires_nonempty_property_and_content :
    (∀ (q : String → Except Unit (Option Element)) pre post tag, ogTruthy tag = false →
      extractMeta q (pre ++ tag :: post) = extractMeta q (pre ++ post)) ∧
    (∀ (q : String → Except Unit (Option Element)) (tags : List Element)
        (tag : Element) (p c : String), tag ∈ tags →
      tag.attr "property" = Except.ok (some p) → p ≠ "" →
      tag.attr "content" = Except.ok (some c) → c ≠ "" →
      p ∈ (extractMeta q tags).map Prod.fst) := by
  constructor
  · intro q pre post tag ht
    simp [extractMeta, List.foldl_append, List.foldl_cons, ogStep_not_truthy tag ht]
  · intro q tags tag p c htag hp hpne hc hcne
    unfold extractMeta
    exact ogFold_records tags _ tag p c htag hp hpne hc hcne

/-- Fixture: an `og:title` tag with non-empty property and content. -/
def ogTitleTag : Element :=
  ⟨fun n => if n = "property" then Except.ok (some "og:title")
    else if n = "content" then Except.ok (some "X") else Except.ok none,
   Except.error ()⟩

/-- Fixture: an Open-Graph tag whose `content` attribute is absent. -/
def ogEmptyContentTag : Element :=
  ⟨fun n => if n = "property" then Except.ok (some "og:description") else Except.ok none,
   Except.error ()⟩

theorem og_meta_requires_nonempty_property_and_content_witness :
    extractMeta (fun _ => Except.ok none) ([ogTitleTag] ++ ogEmptyContentTag :: [])
        = extractMeta (fun _ => Except.ok none) ([ogTitleTag] ++ []) ∧
    "og:title" ∈ (extractMeta (fun _ => Except.ok none) [ogTitleTag, ogEmptyContentTag]).map Prod.fst :=
  ⟨og_meta_requires_nonempty_property_and_content.1 (fun _ => Except.ok none)
      [ogTitleTag] [] ogEmptyContentTag rfl,
   og_meta_requires_nonempty_property_and_content.2 (fun _ => Except.ok none)
      [ogTitleTag, ogEmptyContentTag] ogTitleTag "og:title" "X"
      (List.mem_cons_self _ _) rfl (by decide) rfl (by decide)⟩

end Webshot
